import Mathlib

/-!
Verification of the page-accumulation client (Turjuman Arabic book helper).

The repository has two source files: types.ts declares the data model
(TranslationPair, ProcessingResult); geminiService.ts holds processArabicPdf,
the single call to the external generation service; App.tsx holds the session
state and the two operations handleFileUpload and loadNextPage.

Shallow embedding conventions:
  - TypeScript numbers used as page counters become Int.
  - Optional fields become Option.
  - The external service reply, observed by the code only through
    response.text and the platform JSON parser, is modelled by ReplyText:
    absent (text undefined or empty, so the code substitutes the two-character
    object literal before parsing), malformed (non-empty text the JSON parser
    rejects), or valid v (non-empty text the JSON parser turns into the JSON
    value v). The parser itself is the JavaScript runtime, not repository
    code, so it enters the model only through this classification.
  - Async operations complete atomically: each operation takes the outcome of
    its single suspension point (file read, service reply) as an explicit
    argument and returns the final state, together with the number of requests
    issued to the external service during the operation.
-/

/-- TranslationPair from types.ts lines 1-5: one sentence-level unit,
with optional number pronunciation. -/
structure TranslationPair where
  arabic : String
  english : String
  numberPronunciation : Option String
deriving Repr, DecidableEq

/-- ProcessingResult from types.ts lines 7-13: optional title and author,
the ordered content sequence, the current page counter and the has-more flag. -/
structure ProcessingResult where
  title : Option String
  author : Option String
  content : List TranslationPair
  currentPage : Int
  hasMore : Bool
deriving Repr, DecidableEq

/-- The setResult updater of loadNextPage, App.tsx lines 63-71. When prev is
null the updater returns nextData unchanged (line 64). Otherwise it spreads
nextData (so title and author come from nextData), concatenates prev.content
with nextData.content, and sets currentPage to nextPage, the value computed on
line 60 as result.currentPage + 1; since prev is that same session result,
nextPage equals prev.currentPage + 1. hasMore is set from nextData (line 69,
already implied by the spread). -/
def mergePage (previous : Option ProcessingResult) (next : ProcessingResult) :
    ProcessingResult :=
  match previous with
  | none => next
  | some prev =>
      { next with
        content := prev.content ++ next.content
        currentPage := prev.currentPage + 1
        hasMore := next.hasMore }

/-- C1: merging a newly fetched page onto an accumulated result concatenates
the content sequences in order, previous pages first, so the merged content
equals previous.content followed by next.content and its length is the sum of
the two lengths. -/
theorem mergePage_content_concat_c1
    (prev next : ProcessingResult) :
    (mergePage (some prev) next).content = prev.content ++ next.content
    ∧ (mergePage (some prev) next).content.length
        = prev.content.length + next.content.length := by
  refine ⟨rfl, ?_⟩
  simp [mergePage]

/-- C5: merging when no previous result exists is the identity on the fetched
page (App.tsx line 64). -/
theorem mergePage_absent_identity_c5 (next : ProcessingResult) :
    mergePage none next = next := rfl

/-- C9: the merged result takes title and author from the newly fetched page,
replacing previous values even when the new ones are absent; in particular a
present earlier title is erased by a later absent one. -/
theorem mergePage_title_author_overwrite_c9
    (prev next : ProcessingResult) :
    (mergePage (some prev) next).title = next.title
    ∧ (mergePage (some prev) next).author = next.author
    ∧ (mergePage
        (some { title := some "T", author := some "A", content := [],
                currentPage := 1, hasMore := true })
        { title := none, author := none, content := [],
          currentPage := 2, hasMore := false }).title = none := by
  exact ⟨rfl, rfl, rfl⟩

/-- The accumulated result before the merge in the C2 counterexample. -/
def prevC2 : ProcessingResult :=
  { title := none, author := none, content := [], currentPage := 1,
    hasMore := true }

/-- A fetched page carrying a currentPage value the service chose itself,
different from the requested page, in the C2 counterexample. -/
def nextC2 : ProcessingResult :=
  { title := none, author := none, content := [], currentPage := 99,
    hasMore := false }

/-- C2 counterexample: the merge sets currentPage to the requested page
(previous.currentPage + 1, App.tsx lines 60 and 68), not to the value carried
in the fetched page's result: here the fetched page carries currentPage 99 but
the merge yields currentPage 2. -/
theorem mergePage_currentPage_c2_counterexample :
    (mergePage (some prevC2) nextC2).currentPage = 2
    ∧ nextC2.currentPage = 99
    ∧ (mergePage (some prevC2) nextC2).currentPage ≠ nextC2.currentPage := by
  refine ⟨rfl, rfl, ?_⟩
  decide

/-- C2 amended: for every non-absent previous and every next, the merged
result's hasMore equals next.hasMore, but its currentPage equals
previous.currentPage + 1, the page number that was requested, regardless of
the currentPage value carried in next. -/
theorem mergePage_currentPage_hasMore_c2_amended
    (prev next : ProcessingResult) :
    (mergePage (some prev) next).currentPage = prev.currentPage + 1
    ∧ (mergePage (some prev) next).hasMore = next.hasMore :=
  ⟨rfl, rfl⟩

/-- JSON values, the possible outputs of the platform JSON parser applied to
the service reply text. -/
inductive JsonVal where
  | null
  | bool (b : Bool)
  | num (n : Int)
  | str (s : String)
  | arr (elems : List JsonVal)
  | obj (fields : List (String × JsonVal))
deriving Repr

/-- Field lookup on a parsed JSON object, the model of reading a property of
the parsed reply. -/
def jsonLookup (fields : List (String × JsonVal)) (key : String) :
    Option JsonVal :=
  match fields with
  | [] => none
  | (k, v) :: rest => if k = key then some v else jsonLookup rest key

/-- The service reply as the code observes it through response.text:
absent when the text is undefined or empty (geminiService.ts line 88
substitutes the empty-object literal before parsing), malformed when the text
is present but the JSON parser rejects it, valid v when it parses to v. -/
inductive ReplyText where
  | absent
  | malformed
  | valid (v : JsonVal)

/-- The request processArabicPdf issues to the generation service,
geminiService.ts lines 45-85: the page number parameterizes the prompt
(lines 22-43) and the base64 payload is attached as inline data. -/
structure GenerateRequest where
  pageNumber : Int
  base64Data : String
deriving Repr, DecidableEq

/-- processArabicPdf from geminiService.ts lines 19-93: it always issues one
request built from the page number and the document, then parses
response.text with the empty-object fallback (line 88). The TypeScript cast
on line 88 performs no validation, so on success the function returns the
parsed JSON value verbatim; on parse failure it throws (lines 89-92). -/
def processArabicPdf (base64Data : String) (pageNumber : Int)
    (reply : ReplyText) : GenerateRequest × Except String JsonVal :=
  (⟨pageNumber, base64Data⟩,
    match reply with
    | .absent => .ok (JsonVal.obj [])
    | .malformed => .error "Failed to process the PDF content."
    | .valid v => .ok v)

/-- Reading a content entry under the declared response schema,
geminiService.ts lines 69-77: required arabic and english strings, optional
numberPronunciation string. -/
def decodeTranslationPair (v : JsonVal) : Option TranslationPair :=
  match v with
  | .obj fs =>
      match jsonLookup fs "arabic", jsonLookup fs "english" with
      | some (.str a), some (.str e) =>
          match jsonLookup fs "numberPronunciation" with
          | some (.str p) => some ⟨a, e, some p⟩
          | none => some ⟨a, e, none⟩
          | some _ => none
      | _, _ => none
  | _ => none

/-- Reading a full reply under the declared response schema,
geminiService.ts lines 62-83: content, currentPage and hasMore required,
title and author optional strings. A parsed reply on which this yields none
violates the declared schema of ProcessingResult. -/
def decodeProcessingResult (v : JsonVal) : Option ProcessingResult :=
  match v with
  | .obj fs =>
      match jsonLookup fs "content", jsonLookup fs "currentPage",
          jsonLookup fs "hasMore" with
      | some (.arr items), some (.num page), some (.bool more) =>
          match items.mapM decodeTranslationPair with
          | some pairs =>
              some
                { title :=
                    match jsonLookup fs "title" with
                    | some (.str t) => some t
                    | _ => none
                  author :=
                    match jsonLookup fs "author" with
                    | some (.str a) => some a
                    | _ => none
                  content := pairs
                  currentPage := page
                  hasMore := more }
          | none => none
      | _, _, _ => none
  | _ => none

/-- A service reply that parses successfully but carries a currentPage value
of its own choosing, used against C3. -/
def replyC3 : ReplyText :=
  .valid (JsonVal.obj
    [("content", JsonVal.arr []), ("currentPage", JsonVal.num 99),
     ("hasMore", JsonVal.bool false)])

/-- The ProcessingResult the C3 counterexample reply denotes under the
declared schema. -/
def resultC3 : ProcessingResult :=
  { title := none, author := none, content := [], currentPage := 99,
    hasMore := false }

/-- C3 counterexample: requesting page 1, the service replies with valid JSON
whose currentPage field is 99; processArabicPdf returns it unchanged, so the
returned result is schema-conformant yet its currentPage is 99, not the
requested page number 1. -/
theorem processArabicPdf_currentPage_c3_counterexample :
    (processArabicPdf "doc" 1 replyC3).2
      = Except.ok (JsonVal.obj
          [("content", JsonVal.arr []), ("currentPage", JsonVal.num 99),
           ("hasMore", JsonVal.bool false)])
    ∧ decodeProcessingResult (JsonVal.obj
          [("content", JsonVal.arr []), ("currentPage", JsonVal.num 99),
           ("hasMore", JsonVal.bool false)]) = some resultC3
    ∧ resultC3.currentPage ≠ (1 : Int) := by
  refine ⟨rfl, rfl, by decide⟩

/-- C3 amended: on a successful fetch, processArabicPdf returns the parsed
service reply verbatim — the requested page number parameterizes only the
issued request, never the returned value — so the returned currentPage is
whatever the reply carries and equals the requested page number exactly when
the service echoes it. -/
theorem processArabicPdf_returns_reply_c3_amended
    (base64Data : String) (pageNumber : Int) (v : JsonVal) :
    (processArabicPdf base64Data pageNumber (.valid v)).2 = Except.ok v
    ∧ (processArabicPdf base64Data pageNumber (.valid v)).1
        = ⟨pageNumber, base64Data⟩ :=
  ⟨rfl, rfl⟩

/-- C10: an absent or empty reply does not fail: the code substitutes the
empty-object literal, which parses to an object with no content, currentPage
or hasMore fields, so processArabicPdf succeeds with a value that violates the
declared ProcessingResult schema instead of raising a parse error. -/
theorem processArabicPdf_empty_reply_c10
    (base64Data : String) (pageNumber : Int) :
    processArabicPdf base64Data pageNumber .absent
      = (⟨pageNumber, base64Data⟩, Except.ok (JsonVal.obj []))
    ∧ jsonLookup [] "content" = none
    ∧ jsonLookup [] "currentPage" = none
    ∧ jsonLookup [] "hasMore" = none
    ∧ decodeProcessingResult (JsonVal.obj []) = none :=
  ⟨rfl, rfl, rfl, rfl, rfl⟩

/-- The session state of App.tsx lines 13-17: the two pending flags, the
accumulated result, the held base64 document and the last error message. -/
structure SessionState where
  isUploading : Bool
  isLoadingNext : Bool
  result : Option ProcessingResult
  currentPdfBase64 : Option String
  error : Option String
deriving Repr, DecidableEq

/-- The state React mounts the component with, App.tsx lines 13-17. -/
def initialState : SessionState :=
  { isUploading := false, isLoadingNext := false, result := none,
    currentPdfBase64 := none, error := none }

/-- A selected file as handleFileUpload sees it: its declared media type and
the base64 payload its data URL carries after the comma (App.tsx line 36). -/
structure JsFile where
  type : String
  base64 : String
deriving Repr, DecidableEq

/-- handleFileUpload from App.tsx lines 20-53, run to completion. If no file
is selected nothing happens (line 22). If the declared media type is not PDF
the error message is set and the function returns before any read or request
(lines 24-27). Otherwise the pending flag is raised and error and result are
cleared (lines 29-31); readOk tells whether readAsDataURL succeeds: on a
failed read the catch on lines 49-52 sets the read error and drops the
pending flag, with the previously held document untouched. On a successful
read the base64 payload replaces the held document (line 37), one request is
issued for page 1, and the outcome either becomes the new result or sets the
processing error (lines 39-46); the finally on line 44-46 drops the pending
flag. The second component counts requests issued to the service. -/
def handleFileUpload (st : SessionState) (file : Option JsFile)
    (readOk : Bool) (outcome : Except String ProcessingResult) :
    SessionState × Nat :=
  match file with
  | none => (st, 0)
  | some f =>
      if f.type = "application/pdf" then
        if readOk then
          match outcome with
          | .ok data =>
              ({ st with isUploading := false, error := none,
                         result := some data,
                         currentPdfBase64 := some f.base64 }, 1)
          | .error _ =>
              ({ st with isUploading := false,
                         error := some "Failed to process the PDF. Please try again.",
                         result := none,
                         currentPdfBase64 := some f.base64 }, 1)
        else
          ({ st with isUploading := false,
                     error := some "Error reading file.",
                     result := none }, 0)
      else
        ({ st with error := some "Please upload a PDF file." }, 0)

/-- loadNextPage from App.tsx lines 55-78, run to completion. The guard on
line 56 returns immediately, issuing no request, unless a result and a
document are held and no next-page fetch is pending. Otherwise one request is
issued for page result.currentPage + 1; a successful outcome is merged onto
the held result by the updater of lines 63-71 (mergePage), a failed one sets
the error message (line 73) and leaves the result alone; the finally on lines
75-77 drops the pending flag. The outcome argument stands for the typed value
the awaited call delivers; the second component counts requests issued. -/
def loadNextPage (st : SessionState)
    (outcome : Except String ProcessingResult) : SessionState × Nat :=
  match st.result, st.currentPdfBase64, st.isLoadingNext with
  | some r, some _, false =>
      match outcome with
      | .ok nextData =>
          ({ st with isLoadingNext := false,
                     result := some (mergePage (some r) nextData) }, 1)
      | .error _ =>
          ({ st with isLoadingNext := false,
                     error := some "Failed to load the next page." }, 1)
  | _, _, _ => (st, 0)

/-- The next-page action as the view exposes it, App.tsx lines 223-240: the
button exists only while the held result reports hasMore and is disabled
whenever the next-page pending flag is set. -/
def nextPageActionEnabled (st : SessionState) : Bool :=
  (match st.result with
   | some r => r.hasMore
   | none => false) && !st.isLoadingNext

/-- States the session can reach from the mount state by completed user
actions. -/
inductive Reachable : SessionState → Prop where
  | init : Reachable initialState
  | upload (st : SessionState) (file : Option JsFile) (readOk : Bool)
      (outcome : Except String ProcessingResult) :
      Reachable st → Reachable (handleFileUpload st file readOk outcome).1
  | next (st : SessionState) (outcome : Except String ProcessingResult) :
      Reachable st → Reachable (loadNextPage st outcome).1

/-- In every reachable at-rest state both pending flags are down: every
completed operation either leaves them untouched or drops them in its
finally block. -/
theorem reachable_flags {st : SessionState} (h : Reachable st) :
    st.isUploading = false ∧ st.isLoadingNext = false := by
  induction h with
  | init => exact ⟨rfl, rfl⟩
  | upload st file readOk outcome _ ih =>
      rcases file with _ | f
      · exact ih
      · by_cases hf : f.type = "application/pdf"
        · cases readOk
          · simp [handleFileUpload, hf]
            exact ih.2
          · cases outcome <;> simp [handleFileUpload, hf] <;> exact ih.2
        · simp [handleFileUpload, hf]
          exact ih
  | next st outcome _ ih =>
      rcases st with ⟨u, ln, res, b64, err⟩
      rcases res with _ | r <;> rcases b64 with _ | b <;> cases ln <;>
        cases outcome <;> simp_all [loadNextPage]

/-- C4: a service reply that is not valid JSON makes processArabicPdf fail
with the parse error (geminiService.ts lines 87-92), and on a failed
next-page fetch loadNextPage leaves the accumulated result and the held
document unchanged, only recording the error message (App.tsx lines 72-74). -/
theorem parse_failure_preserves_state_c4 :
    (∀ (base64Data : String) (pageNumber : Int),
      (processArabicPdf base64Data pageNumber .malformed).2
        = Except.error "Failed to process the PDF content.")
    ∧ (∀ (st : SessionState) (e : String),
        ((loadNextPage st (Except.error e)).1).result = st.result
        ∧ ((loadNextPage st (Except.error e)).1).currentPdfBase64
            = st.currentPdfBase64) := by
  refine ⟨fun _ _ => rfl, fun st e => ?_⟩
  rcases st with ⟨u, ln, res, b64, err⟩
  rcases res with _ | r <;> rcases b64 with _ | b <;> cases ln <;>
    simp [loadNextPage]

/-- C6: a file whose declared media type is not PDF is rejected with the
upload error message and no request is issued to the service; nothing else in
the session changes (App.tsx lines 24-27). -/
theorem non_pdf_upload_no_request_c6
    (st : SessionState) (f : JsFile) (readOk : Bool)
    (outcome : Except String ProcessingResult)
    (h : f.type ≠ "application/pdf") :
    handleFileUpload st (some f) readOk outcome
      = ({ st with error := some "Please upload a PDF file." }, 0) := by
  simp [handleFileUpload, h]

/-- C6 witness at a png upload against the mount state. -/
theorem non_pdf_upload_no_request_c6_witness :
    handleFileUpload initialState
        (some { type := "image/png", base64 := "zzz" }) true
        (Except.error "no request")
      = ({ initialState with error := some "Please upload a PDF file." }, 0) :=
  non_pdf_upload_no_request_c6 initialState
    { type := "image/png", base64 := "zzz" } true
    (Except.error "no request") (by decide)

/-- C8: while a next-page fetch is pending the next-page action is disabled
and invoking it issues no request and changes nothing: the guard of App.tsx
line 56 returns immediately and the button of lines 223-240 is disabled. -/
theorem pending_fetch_excluded_c8
    (st : SessionState) (outcome : Except String ProcessingResult)
    (h : st.isLoadingNext = true) :
    nextPageActionEnabled st = false ∧ loadNextPage st outcome = (st, 0) := by
  rcases st with ⟨u, ln, res, b64, err⟩
  subst h
  rcases res with _ | r <;> rcases b64 with _ | b <;>
    simp [nextPageActionEnabled, loadNextPage]

/-- C8 witness at a state holding a result and a document with the pending
flag set. -/
theorem pending_fetch_excluded_c8_witness :
    nextPageActionEnabled
        { isUploading := false, isLoadingNext := true,
          result := some prevC2, currentPdfBase64 := some "b64",
          error := none } = false
    ∧ loadNextPage
        { isUploading := false, isLoadingNext := true,
          result := some prevC2, currentPdfBase64 := some "b64",
          error := none } (Except.ok nextC2)
      = ({ isUploading := false, isLoadingNext := true,
           result := some prevC2, currentPdfBase64 := some "b64",
           error := none }, 0) :=
  pending_fetch_excluded_c8
    { isUploading := false, isLoadingNext := true,
      result := some prevC2, currentPdfBase64 := some "b64", error := none }
    (Except.ok nextC2) rfl

/-- C7: within a session the accumulated content is append-only and the page
counter never decreases — whenever a completed next-page action turns a held
result r into a held result r2, r2.content extends r.content on the right and
r2.currentPage is at least r.currentPage — and an accepted upload with a
successful read resets the session: from any two reachable states the same
upload with the same outcome produces the same state, so nothing of the prior
session survives into it. -/
theorem session_invariants_c7 :
    (∀ (st : SessionState) (outcome : Except String ProcessingResult)
        (r r2 : ProcessingResult),
        st.result = some r →
        ((loadNextPage st outcome).1).result = some r2 →
        (∃ t, r2.content = r.content ++ t)
        ∧ r.currentPage ≤ r2.currentPage)
    ∧ (∀ (st1 st2 : SessionState) (f : JsFile)
        (outcome : Except String ProcessingResult),
        Reachable st1 → Reachable st2 → f.type = "application/pdf" →
        (handleFileUpload st1 (some f) true outcome).1
          = (handleFileUpload st2 (some f) true outcome).1) := by
  constructor
  · intro st outcome r r2 hr hr2
    rcases st with ⟨u, ln, res, b64, err⟩
    rcases res with _ | r0
    · exact absurd hr (by simp)
    · have hrr : r0 = r := by simpa using hr
      subst hrr
      rcases b64 with _ | b
      · have : r0 = r2 := by simpa [loadNextPage] using hr2
        exact this ▸ ⟨⟨[], by simp⟩, le_refl _⟩
      · cases ln
        · cases outcome with
          | ok nextData =>
              have : mergePage (some r0) nextData = r2 := by
                simpa [loadNextPage] using hr2
              subst this
              exact ⟨⟨nextData.content, rfl⟩, by simp [mergePage]⟩
          | error e =>
              have : r0 = r2 := by simpa [loadNextPage] using hr2
              exact this ▸ ⟨⟨[], by simp⟩, le_refl _⟩
        · have : r0 = r2 := by simpa [loadNextPage] using hr2
          exact this ▸ ⟨⟨[], by simp⟩, le_refl _⟩
  · intro st1 st2 f outcome h1 h2 hf
    have g1 := (reachable_flags h1).2
    have g2 := (reachable_flags h2).2
    rcases st1 with ⟨u1, ln1, res1, b1, e1⟩
    rcases st2 with ⟨u2, ln2, res2, b2, e2⟩
    simp only at g1 g2
    subst g1
    subst g2
    cases outcome <;> simp [handleFileUpload, hf]

/-- C7 witness: one completed next-page merge from a concrete reachable-shaped
state extends the content and raises the page counter, and the same upload
from the mount state twice lands in the same state. -/
theorem session_invariants_c7_witness :
    ((∃ t, (mergePage (some prevC2) nextC2).content = prevC2.content ++ t)
      ∧ prevC2.currentPage ≤ (mergePage (some prevC2) nextC2).currentPage)
    ∧ (handleFileUpload initialState
          (some { type := "application/pdf", base64 := "b64" }) true
          (Except.ok nextC2)).1
        = (handleFileUpload initialState
            (some { type := "application/pdf", base64 := "b64" }) true
            (Except.ok nextC2)).1 :=
  ⟨session_invariants_c7.1
      { isUploading := false, isLoadingNext := false,
        result := some prevC2, currentPdfBase64 := some "b64",
        error := none }
      (Except.ok nextC2) prevC2 (mergePage (some prevC2) nextC2) rfl rfl,
   session_invariants_c7.2 initialState initialState
      { type := "application/pdf", base64 := "b64" } (Except.ok nextC2)
      Reachable.init Reachable.init rfl⟩
